import Mathlib

/-!
Verification of `manim-code-blocks` (`src/manim_code_blocks.py`).

The file shallowly embeds the data model and the string-building logic of the
module: `Theme` and `Theme.color_for`, the `OneDark` theme value, the
markup-rendering loop of `CodeBlock.__init__` (bracket-depth counter, group
colors, escaping, the per-line `"\r"` separator, the no-language fallback),
the lookup behaviour of `ProgrammingLanguage.__init__`, and the module-level
side effect that populates `language_colors`.  Tokens are produced by the
external `tokenize_all` library, so token streams and per-line tokenizers are
universally quantified parameters here.
-/

namespace ManimCodeBlocks

/-- A token of the external `tokenize_all` library: a `type` tag (for example
`"keyword"`, `"left paren"`, `"whitespace"`) and the covered source text. -/
structure Token where
  type : String
  value : String
deriving DecidableEq, Repr

/-- `beginsWith ps cs` decides whether the character list `ps` is a prefix of
`cs`. -/
def beginsWith : List Char → List Char → Bool
  | [], _ => true
  | _ :: _, [] => false
  | p :: ps, c :: cs => p == c && beginsWith ps cs

/-- Embedding of Python's `s.startswith(p)`: `p` is a prefix of the character
sequence of `s`. -/
def startswith (s p : String) : Bool :=
  beginsWith p.data s.data

/-- A syntax-highlighting theme (`Theme`, lines 10-25 of the source): an
insertion-ordered color dictionary mapping a hexadecimal color to the token
types drawn in it, and the rotating bracket-group color palette. -/
structure Theme where
  colors : List (String × List String)
  group_matchers : List String

/-- The linear scan of `Theme.color_for` (lines 29-31): return the first color
whose type list contains the token type. -/
def colorFirst : List (String × List String) → String → String
  | [], _ => "#FFFFFF"
  | (key, value) :: rest, ty => if ty ∈ value then key else colorFirst rest ty

/-- `Theme.color_for` (lines 27-32): the first matching color of the theme, or
`"#FFFFFF"` when no color's list contains the token's type. -/
def Theme.color_for (theme : Theme) (token : Token) : String :=
  colorFirst theme.colors token.type

/-- The manim color constant `GRAY_C` used by the `OneDark` theme (line 44). -/
def GRAY_C : String := "#888888"

/-- The `OneDark` theme value (lines 35-52). -/
def OneDark : Theme where
  colors :=
    [("#C678DD", ["keyword", "directive"]),
     ("#61AFEF", ["function"]),
     ("#E06C75", ["identifier"]),
     ("#98C379", ["string"]),
     ("#56B6C2", ["symbol"]),
     ("#D19A66", ["number", "keyword literal"]),
     ("#E5C07B", ["class name"]),
     (GRAY_C, ["comment"])]
  group_matchers := ["#D19A66", "#C678DD", "#56B6C2"]

/-- The group-color index `group_count % len(theme.group_matchers)` of lines
138 and 142.  Python's `%` with a positive modulus is `Int.emod`. -/
def groupIndex (g : Int) (n : Nat) : Int :=
  g % (n : Int)

/-- `theme.group_matchers[group_count % len(theme.group_matchers)]` (lines 138
and 142): list indexing at the group-color index. -/
def groupMatcherAt (theme : Theme) (g : Int) : String :=
  theme.group_matchers.getD (groupIndex g theme.group_matchers.length).toNat ""

/-- The span markup built on lines 138, 142 and 149:
`'<span foreground="' + color + '">' + value + '</span>'`. -/
def mkSpan (color value : String) : String :=
  "<span foreground=\"" ++ color ++ "\">" ++ value ++ "</span>"

/-- One `regex.sub` call with a single-character pattern (lines 146-148):
every occurrence of `pat` is replaced by `rep`. -/
def subChar (pat : Char) (rep : List Char) : List Char → List Char
  | [] => []
  | c :: cs => (if c == pat then rep else [c]) ++ subChar pat rep cs

/-- The three chained `regex.sub` calls of lines 146-148: `&` to `&amp;`,
then `<` to `&lt;`, then `>` to `&gt;`. -/
def escapeValue (s : String) : String :=
  ⟨subChar '>' "&gt;".data (subChar '<' "&lt;".data (subChar '&' "&amp;".data s.data))⟩

/-- Per-character entity form: `&`, `<` and `>` map to their entities, every
other character to itself.  Used to characterise `escapeValue`. -/
def escChar (c : Char) : List Char :=
  if c == '&' then "&amp;".data
  else if c == '<' then "&lt;".data
  else if c == '>' then "&gt;".data
  else [c]

/-- Simultaneous per-character escaping: the entity form of every character in
order. -/
def escapeSpecChars : List Char → List Char
  | [] => []
  | c :: cs => escChar c ++ escapeSpecChars cs

/-- The bracket-depth update of the loop body (lines 137-141): `group_count`
is incremented on a `left*` token, decremented on a `right*` token, unchanged
otherwise. -/
def stepCount (g : Int) (t : Token) : Int :=
  if startswith t.type "left" then g + 1
  else if startswith t.type "right" then g - 1
  else g

/-- The loop body of lines 136-149 acting on the state
`(finished, group_count)`: a `left*` token is wrapped in the group color at
the current depth and the counter is incremented; a `right*` token first
decrements the counter and is wrapped in the group color at the decremented
depth; a `whitespace` token is appended verbatim; any other token is escaped
and wrapped in its theme color. -/
def renderStep (theme : Theme) (acc : List String × Int) (token : Token) :
    List String × Int :=
  if startswith token.type "left" then
    (acc.1 ++ [mkSpan (groupMatcherAt theme acc.2) token.value], acc.2 + 1)
  else if startswith token.type "right" then
    (acc.1 ++ [mkSpan (groupMatcherAt theme (acc.2 - 1)) token.value], acc.2 - 1)
  else if token.type = "whitespace" then
    (acc.1 ++ [token.value], acc.2)
  else
    (acc.1 ++ [mkSpan (theme.color_for token) (escapeValue token.value)], acc.2)

/-- The inner `for token in tokens` loop (lines 136-149): fold the loop body
over a line's token list, starting from the already-built list and the carried
`group_count`. -/
def renderTokens (theme : Theme) (tokens : List Token) (g : Int) :
    List String × Int :=
  tokens.foldl (renderStep theme) ([], g)

/-- The string appended for a single token at depth `g` (the four branches of
lines 137-149). -/
def renderOne (theme : Theme) (g : Int) (t : Token) : String :=
  if startswith t.type "left" then mkSpan (groupMatcherAt theme g) t.value
  else if startswith t.type "right" then mkSpan (groupMatcherAt theme (g - 1)) t.value
  else if t.type = "whitespace" then t.value
  else mkSpan (theme.color_for t) (escapeValue t.value)

/-- Structural form of the token loop: each token contributes exactly one
string, rendered at the depth reached before it. -/
def mapWithDepth (theme : Theme) : List Token → Int → List String
  | [], _ => []
  | t :: ts, g => renderOne theme g t :: mapWithDepth theme ts (stepCount g t)

/-- The bracket-depth counter immediately before the `i`-th token of `ts` is
processed, starting from carry `g`. -/
def depthBefore (ts : List Token) (g : Int) (i : Nat) : Int :=
  (ts.take i).foldl stepCount g

/-- Splitting a character list on a separator character, keeping empty
pieces: the semantics of Python's `str.split` with an explicit one-character
separator. -/
def splitChar (sep : Char) : List Char → List (List Char)
  | [] => [[]]
  | c :: cs =>
    match splitChar sep cs with
    | [] => [[]]
    | r :: rs => if c == sep then [] :: r :: rs else (c :: r) :: rs

/-- Embedding of `text.split("\n")` (line 131): Python's split on the
one-character separator `"\n"`, which keeps empty pieces and returns `[""]`
for the empty string. -/
def pySplit (s : String) (sep : Char) : List String :=
  (splitChar sep s.data).map (fun l => ⟨l⟩)

/-- Processing one line (lines 134-150): tokenize the line, run the token
loop, then append the literal `"\r"` separator. -/
def renderLine (theme : Theme) (tok : String → List Token) (line : String)
    (g : Int) : List String × Int :=
  let r := renderTokens theme (tok line) g
  (r.1 ++ ["\r"], r.2)

/-- The outer `for line in lines` loop (lines 131-150): the `group_count`
returned by each line is carried, unreset, into the next line. -/
def renderLines (theme : Theme) (tok : String → List Token) :
    List String → Int → List String × Int
  | [], g => ([], g)
  | line :: rest, g =>
    let r1 := renderLine theme tok line g
    let r2 := renderLines theme tok rest r1.2
    (r1.1 ++ r2.1, r2.2)

/-- `finished_text` of `CodeBlock.__init__` (lines 130-154): with a language,
split the text on `"\n"`, render every line from carry `0` and join; without a
language, a single plain-white span around the unmodified text. -/
def codeBlockFinishedText (theme : Theme) (language : Option (String → List Token))
    (text : String) : String :=
  match language with
  | some tok => String.join (renderLines theme tok (pySplit text '\n') 0).1
  | none => "<span foreground=\"#FFFFFF\">" ++ text ++ "</span>"

/-- The markup string passed to `MarkupText` (line 156):
`'<span font="...">' + finished_text + '</span>'`. -/
def codeBlockMarkup (theme : Theme) (language : Option (String → List Token))
    (text font : String) : String :=
  "<span font=\"" ++ font ++ "\">" ++ codeBlockFinishedText theme language text ++ "</span>"

/-- The Python exceptions that the lookups of `ProgrammingLanguage.__init__`
can raise. -/
inductive PyError where
  | attributeError (name : String)
  | keyError (key : String)
deriving DecidableEq, Repr

/-- Embedding of `getattr(tokenize_all, name)` with no default (line 78): the
module's attribute table is an association list, and a missing attribute
raises `AttributeError`. -/
def getattrOrRaise (attrs : List (String × L)) (name : String) : Except PyError L :=
  match attrs.find? (fun p => p.1 == name) with
  | some p => Except.ok p.2
  | none => Except.error (PyError.attributeError name)

/-- Embedding of Python dictionary indexing `d[key]` (line 79): a missing key
raises `KeyError`. -/
def dictGetOrRaise (d : List (String × A)) (key : String) : Except PyError A :=
  match d.find? (fun p => p.1 == key) with
  | some p => Except.ok p.2
  | none => Except.error (PyError.keyError key)

/-- The fields of a constructed `ProgrammingLanguage` (lines 60-82): display
name, the `color` field from the fetched color table (`null` becomes `none`),
and the `tokenize_all` language object. -/
structure ProgrammingLanguage (L : Type) where
  name : String
  color : Option String
  language : L

/-- `ProgrammingLanguage.__init__` (lines 76-82): look up the tokenizer
attribute in `tokenize_all` (raising `AttributeError` when absent), then index
`language_colors[name]["color"]` (raising `KeyError` when the name is absent);
the two warning prints fire only after both lookups succeed. -/
def ProgrammingLanguage.init (attrs : List (String × L))
    (language_colors : List (String × Option String)) (name : String)
    (tokenize_name : Option String) : Except PyError (ProgrammingLanguage L) := do
  let language ← getattrOrRaise attrs (tokenize_name.getD name)
  let color ← dictGetOrRaise language_colors name
  pure { name := name, color := color, language := language }

/-- A model of the attribute table of the external `tokenize_all` module,
restricted to two languages; the attribute value stands in for the
`TokenizableLanguage` object. -/
def tokenizeAllAttrs : List (String × String) :=
  [("C", "C lexicon"), ("Python", "Python lexicon")]

/-- A model of the fetched `language_colors` table restricted to the same two
languages. -/
def languageColorsTable : List (String × Option String) :=
  [("C", some "#555555"), ("Python", some "#3572A5")]

/-- An observable side effect of executing the module. -/
inductive Effect where
  | networkFetch (url : String)
deriving DecidableEq, Repr

/-- The URL opened on line 56. -/
def githubColorsUrl : String :=
  "https://raw.githubusercontent.com/ozh/github-colors/master/colors.json"

/-- The side effects of the module-level statements run at import time: line
56 evaluates `urlopen(...)` on the GitHub colors URL to populate
`language_colors`. -/
def moduleLoadEffects : List Effect :=
  [Effect.networkFetch githubColorsUrl]

/-- The number of tokens of a line whose type starts with `left`. -/
def opensCount (ts : List Token) : Nat :=
  ts.countP (fun t => startswith t.type "left")

/-- The number of tokens of a line whose type starts with `right`. -/
def closesCount (ts : List Token) : Nat :=
  ts.countP (fun t => startswith t.type "right")

/-- The token stream `tokenize_all` produces for the line `"((x))"`: two
openers, an identifier, two closers. -/
def parenStream : List Token :=
  [⟨"left paren", "("⟩, ⟨"left paren", "("⟩, ⟨"identifier", "x"⟩,
   ⟨"right paren", ")"⟩, ⟨"right paren", ")"⟩]

/-- A minimal concrete per-line tokenizer: a nonempty line is one identifier
token covering the whole line. -/
def sampleTok : String → List Token :=
  fun l => if l = "" then [] else [⟨"identifier", l⟩]

/-! ## Structural lemmas shared by the claim theorems -/

theorem beginsWith_cons_false {p c : Char} {ps cs : List Char} (h : p ≠ c) :
    beginsWith (p :: ps) (c :: cs) = false := by
  have hb : (p == c) = false := beq_eq_false_iff_ne.mpr h
  show ((p == c) && beginsWith ps cs) = false
  rw [hb, Bool.false_and]

theorem beginsWith_head {p c : Char} {ps cs : List Char}
    (h : beginsWith (p :: ps) (c :: cs) = true) : p = c := by
  have hb : ((p == c) && beginsWith ps cs) = true := h
  simp only [Bool.and_eq_true, beq_iff_eq] at hb
  exact hb.1

theorem startswith_right_of_left (s : String) (h : startswith s "left" = true) :
    startswith s "right" = false := by
  unfold startswith at h ⊢
  rw [show "left".data = 'l' :: ['e', 'f', 't'] from rfl] at h
  rw [show "right".data = 'r' :: ['i', 'g', 'h', 't'] from rfl]
  cases hs : s.data with
  | nil => rw [hs] at h; exact absurd h (by decide)
  | cons c cs =>
    rw [hs] at h
    have : 'l' = c := beginsWith_head h
    exact beginsWith_cons_false (by rw [← this]; decide)

theorem startswith_left_of_right (s : String) (h : startswith s "right" = true) :
    startswith s "left" = false := by
  unfold startswith at h ⊢
  rw [show "right".data = 'r' :: ['i', 'g', 'h', 't'] from rfl] at h
  rw [show "left".data = 'l' :: ['e', 'f', 't'] from rfl]
  cases hs : s.data with
  | nil => rw [hs] at h; exact absurd h (by decide)
  | cons c cs =>
    rw [hs] at h
    have : 'r' = c := beginsWith_head h
    exact beginsWith_cons_false (by rw [← this]; decide)

theorem renderStep_eq (theme : Theme) (acc : List String × Int) (t : Token) :
    renderStep theme acc t = (acc.1 ++ [renderOne theme acc.2 t], stepCount acc.2 t) := by
  unfold renderStep renderOne stepCount
  by_cases h1 : startswith t.type "left" = true
  · simp [h1]
  · simp only [Bool.not_eq_true] at h1
    by_cases h2 : startswith t.type "right" = true
    · simp [h1, h2]
    · simp only [Bool.not_eq_true] at h2
      by_cases h3 : t.type = "whitespace"
      · simp [h1, h2, h3, (by decide : startswith "whitespace" "left" = false),
          (by decide : startswith "whitespace" "right" = false)]
      · simp [h1, h2, h3]

theorem foldl_renderStep (theme : Theme) (ts : List Token) :
    ∀ (acc : List String) (g : Int),
      ts.foldl (renderStep theme) (acc, g) =
        (acc ++ mapWithDepth theme ts g, ts.foldl stepCount g) := by
  induction ts with
  | nil => intro acc g; simp [mapWithDepth]
  | cons t ts ih =>
    intro acc g
    rw [List.foldl_cons, renderStep_eq, ih]
    simp [mapWithDepth]

theorem renderTokens_eq (theme : Theme) (ts : List Token) (g : Int) :
    renderTokens theme ts g = (mapWithDepth theme ts g, ts.foldl stepCount g) := by
  unfold renderTokens
  rw [foldl_renderStep]
  simp

theorem foldl_stepCount_eq (ts : List Token) :
    ∀ g : Int, ts.foldl stepCount g = g + (opensCount ts : Int) - (closesCount ts : Int) := by
  induction ts with
  | nil => intro g; simp [opensCount, closesCount]
  | cons t ts ih =>
    intro g
    rw [List.foldl_cons, ih]
    unfold opensCount closesCount stepCount
    by_cases h1 : startswith t.type "left" = true
    · have h2 := startswith_right_of_left t.type h1
      simp only [List.countP_cons, h1, h2, if_true, if_false]
      push_cast
      omega
    · simp only [Bool.not_eq_true] at h1
      by_cases h2 : startswith t.type "right" = true
      · simp only [List.countP_cons, h1, h2, if_true, if_false]
        push_cast
        omega
      · simp only [Bool.not_eq_true] at h2
        simp only [List.countP_cons, h1, h2, if_false]
        push_cast
        omega

theorem mapWithDepth_getD (theme : Theme) :
    ∀ (ts : List Token) (g : Int) (i : Nat), i < ts.length →
      (mapWithDepth theme ts g).getD i "" =
        renderOne theme (depthBefore ts g i) (ts.getD i ⟨"", ""⟩) := by
  intro ts
  induction ts with
  | nil => intro g i h; simp at h
  | cons t ts ih =>
    intro g i h
    cases i with
    | zero => simp [mapWithDepth, depthBefore]
    | succ i =>
      simp only [mapWithDepth, List.getD_cons_succ]
      rw [ih (stepCount g t) i (by simpa using h)]
      congr 1

theorem renderTokens_getD (theme : Theme) (ts : List Token) (g : Int) (i : Nat)
    (h : i < ts.length) :
    (renderTokens theme ts g).1.getD i "" =
      renderOne theme (depthBefore ts g i) (ts.getD i ⟨"", ""⟩) := by
  rw [renderTokens_eq]
  exact mapWithDepth_getD theme ts g i h

theorem renderTokens_snd (theme : Theme) (ts : List Token) (g : Int) :
    (renderTokens theme ts g).2 = ts.foldl stepCount g := by
  rw [renderTokens_eq]

theorem subChar_append (pat : Char) (rep : List Char) (l1 l2 : List Char) :
    subChar pat rep (l1 ++ l2) = subChar pat rep l1 ++ subChar pat rep l2 := by
  induction l1 with
  | nil => rfl
  | cons c cs ih => simp [subChar, ih]

theorem escChar_head (c : Char) :
    subChar '>' "&gt;".data (subChar '<' "&lt;".data (subChar '&' "&amp;".data [c]))
      = escChar c := by
  by_cases h1 : c = '&'
  · subst h1; decide
  · by_cases h2 : c = '<'
    · subst h2; decide
    · by_cases h3 : c = '>'
      · subst h3; decide
      · have b1 : (c == '&') = false := by simp [h1]
        have b2 : (c == '<') = false := by simp [h2]
        have b3 : (c == '>') = false := by simp [h3]
        simp [subChar, escChar, b1, b2, b3]

theorem escape_correct (cs : List Char) :
    subChar '>' "&gt;".data (subChar '<' "&lt;".data (subChar '&' "&amp;".data cs))
      = escapeSpecChars cs := by
  induction cs with
  | nil => rfl
  | cons c cs ih =>
    have h : subChar '&' "&amp;".data (c :: cs)
        = subChar '&' "&amp;".data [c] ++ subChar '&' "&amp;".data cs := by
      rw [← subChar_append]
      rfl
    rw [h, subChar_append, subChar_append, ih, escChar_head]
    rfl

theorem escapeValue_eq (s : String) : escapeValue s = ⟨escapeSpecChars s.data⟩ :=
  congrArg (fun l => String.mk l) (escape_correct s.data)

theorem mkSpan_ne_sep (color value : String) : mkSpan color value ≠ "\r" := by
  intro h
  have hlen := congrArg String.length h
  simp only [mkSpan, String.length_append] at hlen
  have h1 : ("<span foreground=\"" : String).length = 18 := by decide
  have h2 : ("\">" : String).length = 2 := by decide
  have h3 : ("</span>" : String).length = 7 := by decide
  have h4 : ("\r" : String).length = 1 := by decide
  omega

theorem renderOne_ne_sep (theme : Theme) (g : Int) (t : Token)
    (h : t.type = "whitespace" → t.value ≠ "\r") :
    renderOne theme g t ≠ "\r" := by
  unfold renderOne
  by_cases h1 : startswith t.type "left" = true
  · simp [h1, mkSpan_ne_sep]
  · simp only [Bool.not_eq_true] at h1
    by_cases h2 : startswith t.type "right" = true
    · simp [h1, h2, mkSpan_ne_sep]
    · simp only [Bool.not_eq_true] at h2
      by_cases h3 : t.type = "whitespace"
      · simp [h1, h2, h3]
        exact h h3
      · simp [h1, h2, h3, mkSpan_ne_sep]

theorem mapWithDepth_count_sep (theme : Theme) :
    ∀ (ts : List Token) (g : Int),
      (∀ t ∈ ts, t.type = "whitespace" → t.value ≠ "\r") →
      (mapWithDepth theme ts g).count "\r" = 0 := by
  intro ts
  induction ts with
  | nil => intro g _; rfl
  | cons t ts ih =>
    intro g h
    have hne := renderOne_ne_sep theme g t (h t (by simp))
    have hrest := ih (stepCount g t) (fun u hu => h u (by simp [hu]))
    simp [mapWithDepth, List.count_cons, hne, hrest]

theorem renderLines_count_sep (theme : Theme) (tok : String → List Token) :
    ∀ (lines : List String) (g : Int),
      (∀ l ∈ lines, ∀ t ∈ tok l, t.type = "whitespace" → t.value ≠ "\r") →
      (renderLines theme tok lines g).1.count "\r" = lines.length := by
  intro lines
  induction lines with
  | nil => intro g _; rfl
  | cons line rest ih =>
    intro g h
    have hline : (renderTokens theme (tok line) g).1.count "\r" = 0 := by
      rw [renderTokens_eq]
      exact mapWithDepth_count_sep theme (tok line) g (h line (by simp))
    have hrest := ih (renderLine theme tok line g).2
      (fun l hl => h l (by simp [hl]))
    simp only [renderLines, renderLine, List.count_append] at hrest ⊢
    simp [hline, hrest, List.count_cons]
    omega

theorem colorFirst_not_found :
    ∀ (cs : List (String × List String)) (ty : String),
      (∀ p ∈ cs, ty ∉ p.2) → colorFirst cs ty = "#FFFFFF" := by
  intro cs
  induction cs with
  | nil => intro ty _; rfl
  | cons c cs ih =>
    intro ty h
    obtain ⟨key, value⟩ := c
    have hne : ty ∉ value := h (key, value) (by simp)
    simp only [colorFirst, if_neg hne]
    exact ih ty (fun p hp => h p (by simp [hp]))

theorem colorFirst_found :
    ∀ (cs : List (String × List String)) (ty : String),
      (∃ p ∈ cs, ty ∈ p.2) → ∃ p ∈ cs, colorFirst cs ty = p.1 ∧ ty ∈ p.2 := by
  intro cs
  induction cs with
  | nil => intro ty h; simp at h
  | cons c cs ih =>
    intro ty h
    obtain ⟨key, value⟩ := c
    by_cases hty : ty ∈ value
    · exact ⟨(key, value), by simp, by simp [colorFirst, hty], hty⟩
    · have h2 : ∃ p ∈ cs, ty ∈ p.2 := by
        obtain ⟨p, hp, hin⟩ := h
        rcases List.mem_cons.mp hp with heq | hmem
        · subst heq; exact absurd hin hty
        · exact ⟨p, hmem, hin⟩
      obtain ⟨p, hp, hfst, hin⟩ := ih ty h2
      exact ⟨p, by simp [hp], by simp [colorFirst, hty, hfst], hin⟩

/-! ## Claim theorems -/

/-- C1: the bracket-depth counter is incremented by one on each token whose
type starts with `left` and decremented by one on each token whose type
starts with `right`; after processing a line the counter equals the carry
before the line plus the line's left-bracket count minus its right-bracket
count, and the counter is threaded across the whole list of lines without
being reset (so over any line list it is the initial carry plus the summed
per-line differences). -/
theorem bracket_depth_invariant (theme : Theme) (tok : String → List Token)
    (line : String) (lines : List String) (g : Int) :
    (renderLine theme tok line g).2
        = g + (opensCount (tok line) : Int) - (closesCount (tok line) : Int)
    ∧ (renderLines theme tok lines g).2
        = g + (lines.map
            (fun l => (opensCount (tok l) : Int) - (closesCount (tok l) : Int))).sum := by
  constructor
  · simp only [renderLine]
    rw [renderTokens_snd, foldl_stepCount_eq]
  · induction lines generalizing g with
    | nil => simp [renderLines]
    | cons l rest ih =>
      simp only [renderLines, List.map_cons, List.sum_cons]
      rw [ih]
      simp only [renderLine]
      rw [renderTokens_snd, foldl_stepCount_eq]
      ring

/-- C2: a token whose type starts with `left` is wrapped in a span whose
foreground color is `theme.group_matchers[d % N]`, where `d` is the
bracket-depth counter immediately before the token is processed. -/
theorem left_token_group_color (theme : Theme) (ts : List Token) (g : Int)
    (i : Nat) (h : i < ts.length)
    (hleft : startswith (ts.getD i ⟨"", ""⟩).type "left" = true) :
    (renderTokens theme ts g).1.getD i ""
      = mkSpan (groupMatcherAt theme (depthBefore ts g i))
          (ts.getD i ⟨"", ""⟩).value := by
  rw [renderTokens_getD theme ts g i h]
  set t := ts.getD i ⟨"", ""⟩ with ht
  unfold renderOne
  simp [hleft]

/-- Witness for C2: for the `"((x))"` token stream from depth 0, the first
opener is colored `group_matchers[0 % N]` and the second
`group_matchers[1 % N]`. -/
theorem left_token_group_color_witness :
    (renderTokens OneDark parenStream 0).1.getD 0 ""
        = mkSpan (groupMatcherAt OneDark 0) "("
    ∧ (renderTokens OneDark parenStream 0).1.getD 1 ""
        = mkSpan (groupMatcherAt OneDark 1) "(" := by
  constructor
  · rw [left_token_group_color OneDark parenStream 0 0 (by decide) (by decide)]
    decide
  · rw [left_token_group_color OneDark parenStream 0 1 (by decide) (by decide)]
    decide

/-- C3 counterexample: a bracket token's value is embedded into the span
markup verbatim, not escaped: a `left angle` token with value `"<"` yields a
span containing a raw `<`, different from the span around the escaped
value. -/
theorem bracket_value_not_escaped :
    (renderTokens OneDark [⟨"left angle", "<"⟩] 0).1
        = ["<span foreground=\"#D19A66\"><</span>"]
    ∧ "<span foreground=\"#D19A66\"><</span>"
        ≠ mkSpan "#D19A66" (escapeValue "<") := by
  exact ⟨by decide, by decide⟩

/-- C3 amended: the entity escaping of `&`, `<` and `>` is applied exactly to
tokens that are neither brackets nor whitespace: for such a token the loop
body appends a span around the value with every occurrence of `&`, `<`, `>`
replaced by its entity form (`escapeSpecChars` maps each character to its
entity form simultaneously); bracket and whitespace token values are embedded
verbatim. -/
theorem escaping_on_plain_tokens (theme : Theme) (acc : List String × Int)
    (t : Token)
    (h1 : startswith t.type "left" = false)
    (h2 : startswith t.type "right" = false)
    (h3 : t.type ≠ "whitespace") :
    renderStep theme acc t
      = (acc.1 ++ [mkSpan (theme.color_for t) ⟨escapeSpecChars t.value.data⟩],
         acc.2) := by
  unfold renderStep
  simp only [h1, h2, h3, Bool.false_eq_true, if_false, if_neg h3]
  rw [escapeValue_eq]

/-- Witness for C3 (amended): an identifier token containing `&`, `<` and `>`
is escaped to its entity forms inside its span. -/
theorem escaping_on_plain_tokens_witness :
    renderStep OneDark ([], 0) ⟨"identifier", "a&b<c>"⟩
      = (["<span foreground=\"#E06C75\">a&amp;b&lt;c&gt;</span>"], 0) := by
  rw [escaping_on_plain_tokens OneDark ([], 0) ⟨"identifier", "a&b<c>"⟩
    (by decide) (by decide) (by decide)]
  decide

/-- C4 (code bug): constructing a `ProgrammingLanguage` for a name with no
registered tokenizer raises `AttributeError` (from `getattr` with no
default), and a name with a tokenizer but no registered color raises
`KeyError` (from `language_colors[name]`), instead of warning and
continuing. -/
theorem unknown_language_raises :
    ProgrammingLanguage.init tokenizeAllAttrs languageColorsTable
        "Brainfudge" none
      = Except.error (PyError.attributeError "Brainfudge")
    ∧ ProgrammingLanguage.init (("Zig", "Zig lexicon") :: tokenizeAllAttrs)
        languageColorsTable "Zig" none
      = Except.error (PyError.keyError "Zig") := by
  exact ⟨rfl, rfl⟩

/-- C5: `Theme.color_for` returns `"#FFFFFF"` when no color list of the theme
contains the token's type, and otherwise returns a color one of whose listed
types is the token's type. -/
theorem color_for_default_or_match (theme : Theme) (token : Token) :
    ((∀ p ∈ theme.colors, token.type ∉ p.2) →
        theme.color_for token = "#FFFFFF")
    ∧ ((∃ p ∈ theme.colors, token.type ∈ p.2) →
        ∃ p ∈ theme.colors, theme.color_for token = p.1 ∧ token.type ∈ p.2) := by
  constructor
  · intro h
    exact colorFirst_not_found theme.colors token.type h
  · intro h
    exact colorFirst_found theme.colors token.type h

/-- Witness for C5: in `OneDark`, an unlisted type gets `"#FFFFFF"` and
`"keyword"` gets a color whose list contains `"keyword"`. -/
theorem color_for_default_or_match_witness :
    OneDark.color_for ⟨"mystery", "?"⟩ = "#FFFFFF"
    ∧ ∃ p ∈ OneDark.colors,
        OneDark.color_for ⟨"keyword", "k"⟩ = p.1 ∧ "keyword" ∈ p.2 :=
  ⟨(color_for_default_or_match OneDark ⟨"mystery", "?"⟩).1 (by decide),
   (color_for_default_or_match OneDark ⟨"keyword", "k"⟩).2
     ⟨("#C678DD", ["keyword", "directive"]), by decide, by decide⟩⟩

/-- C6: the rendering loop appends the literal `"\r"` separator exactly once
per input line, after that line's token spans, so (when no token itself
renders as `"\r"`) the number of `"\r"` occurrences in the built list equals
the number of lines obtained by splitting the text on `"\n"`. -/
theorem one_separator_per_line (theme : Theme) (tok : String → List Token)
    (text : String)
    (h : ∀ l ∈ pySplit text '\n', ∀ t ∈ tok l,
        t.type = "whitespace" → t.value ≠ "\r") :
    (∀ (line : String) (g : Int),
        (renderLine theme tok line g).1
          = (renderTokens theme (tok line) g).1 ++ ["\r"])
    ∧ (renderLines theme tok (pySplit text '\n') 0).1.count "\r"
        = (pySplit text '\n').length :=
  ⟨fun _ _ => rfl, renderLines_count_sep theme tok (pySplit text '\n') 0 h⟩

/-- Witness for C6: two lines produce exactly two separators. -/
theorem one_separator_per_line_witness :
    (renderLines OneDark sampleTok (pySplit "a\nb" '\n') 0).1.count "\r"
      = (pySplit "a\nb" '\n').length :=
  (one_separator_per_line OneDark sampleTok "a\nb" (by decide)).2

/-- C7: with no language, the finished text is a single plain-white span
around the unmodified text, independent of the theme, and the surrounding
markup is just the font span around it. -/
theorem no_language_plain_white (theme other : Theme) (text font : String) :
    codeBlockFinishedText theme none text
        = "<span foreground=\"#FFFFFF\">" ++ text ++ "</span>"
    ∧ codeBlockMarkup theme none text font
        = "<span font=\"" ++ font ++ "\">"
            ++ ("<span foreground=\"#FFFFFF\">" ++ text ++ "</span>")
            ++ "</span>"
    ∧ codeBlockFinishedText theme none text
        = codeBlockFinishedText other none text :=
  ⟨rfl, rfl, rfl⟩

/-- C8 counterexample: the module-level statements executed at import time
are not free of network access: they include the fetch of the GitHub colors
JSON that populates `language_colors`. -/
theorem module_load_fetches_network :
    moduleLoadEffects ≠ []
    ∧ Effect.networkFetch githubColorsUrl ∈ moduleLoadEffects :=
  ⟨by decide, by decide⟩

/-- C8 amended: importing the module performs exactly one network effect, the
fetch of the GitHub colors JSON into the module global `language_colors`
(the color table is a live import-time dependency, not caller-injected);
the markup generation itself is a pure function of the text, the tokenizer
and the theme. -/
theorem import_fetches_colors_once (theme : Theme)
    (tok : String → List Token) (text : String) :
    moduleLoadEffects = [Effect.networkFetch githubColorsUrl]
    ∧ codeBlockFinishedText theme (some tok) text
        = String.join (renderLines theme tok (pySplit text '\n') 0).1 :=
  ⟨rfl, rfl⟩

/-- C9: a right-bracket token that closes a left-bracket token opened at
depth `d` (its depth before processing is `d + 1`, since the counter is
decremented before the right bracket's color is chosen) is wrapped in the
same group color `group_matchers[d % N]` as its matching left bracket. -/
theorem matching_brackets_same_color (theme : Theme) (ts : List Token)
    (g d : Int) (i j : Nat) (hi : i < ts.length) (hj : j < ts.length)
    (_hij : i < j)
    (hleft : startswith (ts.getD i ⟨"", ""⟩).type "left" = true)
    (hright : startswith (ts.getD j ⟨"", ""⟩).type "right" = true)
    (hdi : depthBefore ts g i = d) (hdj : depthBefore ts g j = d + 1) :
    (renderTokens theme ts g).1.getD i ""
        = mkSpan (groupMatcherAt theme d) (ts.getD i ⟨"", ""⟩).value
    ∧ (renderTokens theme ts g).1.getD j ""
        = mkSpan (groupMatcherAt theme d) (ts.getD j ⟨"", ""⟩).value := by
  constructor
  · rw [renderTokens_getD theme ts g i hi]
    set t := ts.getD i ⟨"", ""⟩ with ht
    unfold renderOne
    simp [hleft, hdi]
  · rw [renderTokens_getD theme ts g j hj]
    have hnl := startswith_left_of_right _ hright
    set u := ts.getD j ⟨"", ""⟩ with hu
    unfold renderOne
    simp [hnl, hright, hdj]

/-- Witness for C9: in the `"((x))"` stream the inner pair (positions 1 and
3, opened at depth 1) both get the depth-1 group color. -/
theorem matching_brackets_same_color_witness :
    (renderTokens OneDark parenStream 0).1.getD 1 ""
        = mkSpan (groupMatcherAt OneDark 1) "("
    ∧ (renderTokens OneDark parenStream 0).1.getD 3 ""
        = mkSpan (groupMatcherAt OneDark 1) ")" := by
  have h := matching_brackets_same_color OneDark parenStream 0 1 1 3
    (by decide) (by decide) (by decide) (by decide) (by decide)
    (by decide) (by decide)
  constructor
  · rw [h.1]; decide
  · rw [h.2]; decide

/-- C10: for every counter value, including negative ones, the group-color
index `group_count % len(group_matchers)` lies in `[0, N)` (Python `%` with a
positive modulus is non-negative), so the palette lookup always selects an
element of `group_matchers`. -/
theorem group_index_in_range (theme : Theme) (g : Int)
    (h : theme.group_matchers.length ≠ 0) :
    0 ≤ groupIndex g theme.group_matchers.length
    ∧ groupIndex g theme.group_matchers.length
        < (theme.group_matchers.length : Int)
    ∧ groupMatcherAt theme g ∈ theme.group_matchers := by
  have hn : (0 : Int) < (theme.group_matchers.length : Int) := by
    exact_mod_cast Nat.pos_of_ne_zero h
  have h1 : 0 ≤ groupIndex g theme.group_matchers.length :=
    Int.emod_nonneg g hn.ne'
  have h2 : groupIndex g theme.group_matchers.length
      < (theme.group_matchers.length : Int) := Int.emod_lt_of_pos g hn
  refine ⟨h1, h2, ?_⟩
  unfold groupMatcherAt
  have hlt : (groupIndex g theme.group_matchers.length).toNat
      < theme.group_matchers.length := by omega
  rw [List.getD_eq_getElem _ _ hlt]
  exact List.getElem_mem hlt

/-- Witness for C10: in `OneDark` (palette size 3) the index for the negative
counter `-2` is in range and selects a palette element. -/
theorem group_index_in_range_witness :
    0 ≤ groupIndex (-2) OneDark.group_matchers.length
    ∧ groupIndex (-2) OneDark.group_matchers.length
        < (OneDark.group_matchers.length : Int)
    ∧ groupMatcherAt OneDark (-2) ∈ OneDark.group_matchers :=
  group_index_in_range OneDark (-2) (by decide)

end ManimCodeBlocks
